import Mathlib

/-!
Verification of the options-spread analyzer's backtesting core.

The definitions below are a shallow embedding of the Python sources
`src/options_analyzer/backtesting/{models,backtest_engine,strategy_tracker,performance_analyzer}.py`
and `src/options_analyzer/core/options_strategies.py`.

Modelling conventions:
  * money values (`float` in the source) are rationals `ℚ`;
  * timestamps (`datetime`) are integers `ℤ` (an absolute day index);
    calendar-month keys, which `performance_analyzer` obtains via
    `strftime`, are supplied by an injected `monthKey : ℤ → ℤ` function;
  * `numpy.std` leaves `ℚ` (square root), so the square-root primitive is
    injected as a function parameter `sqrt : ℚ → ℚ`;
  * nondeterministic inputs of the code (`uuid.uuid4()`, `datetime.now()`)
    are explicit parameters;
  * fallible collaborators (the price source, which may raise, and the
    results store, whose update returns a success flag) are injected as
    functions returning `Option`/`Bool`.
-/

namespace OSA

/-- Status enum of `backtesting/models.py` (`StrategyStatus`). -/
inductive StrategyStatus where
  | PENDING
  | ACTIVE
  | COMPLETED
  | EXPIRED
deriving DecidableEq, Repr

/-- Outcome enum of `backtesting/models.py` (`StrategyResult`). -/
inductive StrategyResult where
  | PROFIT
  | LOSS
  | BREAKEVEN
deriving DecidableEq, Repr

/-- The `BacktestStrategy` dataclass of `backtesting/models.py`.
The opaque `market_analysis` blob is a key-value list; the optional
completion fields default to `none` exactly as the dataclass defaults
them to `None`. -/
structure BacktestStrategy where
  id : String
  symbol : String
  strategy_name : String
  entry_date : ℤ
  expiration_date : ℤ
  entry_price : ℚ
  lower_strike : ℚ
  upper_strike : ℚ
  lower_premium : ℚ
  upper_premium : ℚ
  contracts : ℤ
  initial_cost : ℚ
  max_profit : ℚ
  max_loss : ℚ
  status : StrategyStatus
  market_analysis : List (String × String) := []
  created_at : ℤ := 0
  exit_price : Option ℚ := none
  exit_date : Option ℤ := none
  final_pnl : Option ℚ := none
  result : Option StrategyResult := none
  exit_reason : Option String := none
  notes : Option String := none
deriving DecidableEq, Repr

namespace Engine

/-- `BacktestEngine.add_strategy_for_backtesting` from
`backtesting/backtest_engine.py` (lines 78-140), up to and including the
construction of the `BacktestStrategy` object.  The generated uuid (`id`)
and the two `datetime.now()` readings (`entry_date`, `created_at`) are
injected parameters; the final persistence hand-off to
`StrategyTracker.add_strategy` is outside this definition.  The function
returns `none` exactly when the strategy kind is unknown (source lines
105-107). -/
def add_strategy_for_backtesting (id symbol strategy_name : String)
    (entry_date created_at : ℤ) (expiration_date : ℤ)
    (entry_price lower_strike upper_strike lower_premium upper_premium : ℚ)
    (contracts : ℤ) (market_analysis : List (String × String)) :
    Option BacktestStrategy :=
  if strategy_name = "Call Debit Spread" then
    let initial_cost := (lower_premium - upper_premium) * (contracts : ℚ)
    let max_profit :=
      (upper_strike - lower_strike - (lower_premium - upper_premium)) * (contracts : ℚ)
    let max_loss := (lower_premium - upper_premium) * (contracts : ℚ)
    some { id := id, symbol := symbol, strategy_name := strategy_name,
           entry_date := entry_date, expiration_date := expiration_date,
           entry_price := entry_price, lower_strike := lower_strike,
           upper_strike := upper_strike, lower_premium := lower_premium,
           upper_premium := upper_premium, contracts := contracts,
           initial_cost := initial_cost, max_profit := max_profit,
           max_loss := max_loss, status := StrategyStatus.ACTIVE,
           market_analysis := market_analysis, created_at := created_at }
  else if strategy_name = "Put Debit Spread" then
    let initial_cost := (upper_premium - lower_premium) * (contracts : ℚ)
    let max_profit :=
      (upper_strike - lower_strike - (upper_premium - lower_premium)) * (contracts : ℚ)
    let max_loss := (upper_premium - lower_premium) * (contracts : ℚ)
    some { id := id, symbol := symbol, strategy_name := strategy_name,
           entry_date := entry_date, expiration_date := expiration_date,
           entry_price := entry_price, lower_strike := lower_strike,
           upper_strike := upper_strike, lower_premium := lower_premium,
           upper_premium := upper_premium, contracts := contracts,
           initial_cost := initial_cost, max_profit := max_profit,
           max_loss := max_loss, status := StrategyStatus.ACTIVE,
           market_analysis := market_analysis, created_at := created_at }
  else
    none

end Engine

namespace Tracker

/-- `StrategyTracker.calculate_strategy_result` from
`backtesting/strategy_tracker.py` (lines 82-148): settlement P&L, outcome
and human-readable reason for a strategy at a given settlement price.
The Python `try` wrapper's fallback (line 146-148) is unreachable in this
pure model, as no arithmetic in the body can raise. -/
def calculate_strategy_result (strategy : BacktestStrategy)
    (current_price : ℚ) : ℚ × StrategyResult × String :=
  if strategy.strategy_name = "Call Debit Spread" then
    if current_price ≥ strategy.upper_strike then
      (strategy.max_profit, StrategyResult.PROFIT,
        "Price above upper strike - max profit")
    else if current_price ≤ strategy.lower_strike then
      (-strategy.max_loss, StrategyResult.LOSS,
        "Price below lower strike - max loss")
    else
      let intrinsic_value := current_price - strategy.lower_strike
      let pnl := (intrinsic_value - strategy.initial_cost) * (strategy.contracts : ℚ)
      if pnl > 0 then
        (pnl, StrategyResult.PROFIT, "Price between strikes - partial profit")
      else if pnl < 0 then
        (pnl, StrategyResult.LOSS, "Price between strikes - partial loss")
      else
        (pnl, StrategyResult.BREAKEVEN, "Price at breakeven point")
  else if strategy.strategy_name = "Put Debit Spread" then
    if current_price ≤ strategy.lower_strike then
      (strategy.max_profit, StrategyResult.PROFIT,
        "Price below lower strike - max profit")
    else if current_price ≥ strategy.upper_strike then
      (-strategy.max_loss, StrategyResult.LOSS,
        "Price above upper strike - max loss")
    else
      let intrinsic_value := strategy.upper_strike - current_price
      let pnl := (intrinsic_value - strategy.initial_cost) * (strategy.contracts : ℚ)
      if pnl > 0 then
        (pnl, StrategyResult.PROFIT, "Price between strikes - partial profit")
      else if pnl < 0 then
        (pnl, StrategyResult.LOSS, "Price between strikes - partial loss")
      else
        (pnl, StrategyResult.BREAKEVEN, "Price at breakeven point")
  else
    (0, StrategyResult.BREAKEVEN, "Unknown strategy type")

/-- `StrategyTracker.remove_strategy` (strategy_tracker.py lines 37-45):
replaces the active list by the sublist of strategies with a different id.
The `try` wrapper cannot fail in this pure model. -/
def remove_strategy (active : List BacktestStrategy) (strategy_id : String) :
    List BacktestStrategy :=
  active.filter (fun s => s.id ≠ strategy_id)

/-- `StrategyTracker.get_expired_strategies` (lines 51-60): the active
strategies whose expiration_date is at or before `now`. -/
def get_expired_strategies (now : ℤ) (active : List BacktestStrategy) :
    List BacktestStrategy :=
  active.filter (fun s => s.expiration_date ≤ now)

/-- The in-place mutation of strategy_tracker.py lines 164-169: settle the
strategy at `current_price` and fill the completion fields, marking the
record COMPLETED.  In the source this mutation happens BEFORE the store
update is attempted. -/
def completeStrategy (s : BacktestStrategy) (current_price : ℚ)
    (exit_time : ℤ) : BacktestStrategy :=
  let r := calculate_strategy_result s current_price
  { s with exit_price := some current_price,
           exit_date := some exit_time,
           final_pnl := some r.1,
           result := some r.2.1,
           exit_reason := some r.2.2,
           status := StrategyStatus.COMPLETED }

/-- One iteration of the loop body of
`StrategyTracker.process_expired_strategies` (lines 155-181) for the
expired strategy `s`, acting on the pair
(active list, processed-so-far list).

  * `getPrice` is the injected price source; `none` models the lookup
    raising (source line 158), which aborts the iteration for this record.
  * The source then mutates the strategy object in place (lines 164-169,
    `completeStrategy`) BEFORE calling the store; the mutation is modelled
    by replacing every active entry carrying the same id (ids are
    uuid4-generated, so an id identifies the object).
  * `updateOk` is the store call `update_strategy_result(id, price, date,
    pnl, result, reason)` (lines 172-175); `false` covers both a `False`
    return and a raise, which leave the same state.  On success the record
    is appended to the processed list and removed from the active list;
    on failure the (already mutated) record stays in the active list. -/
def processOneExpired (getPrice : String → Option ℚ)
    (updateOk : String → ℚ → ℤ → ℚ → StrategyResult → String → Bool)
    (exit_time : ℤ) (acc : List BacktestStrategy × List BacktestStrategy)
    (s : BacktestStrategy) : List BacktestStrategy × List BacktestStrategy :=
  match getPrice s.symbol with
  | none => acc
  | some current_price =>
    let r := calculate_strategy_result s current_price
    let s2 := completeStrategy s current_price exit_time
    let active2 := acc.1.map (fun t => if t.id = s.id then s2 else t)
    if updateOk s.id current_price exit_time r.1 r.2.1 r.2.2 then
      (remove_strategy active2 s.id, acc.2 ++ [s2])
    else
      (active2, acc.2)

/-- `StrategyTracker.process_expired_strategies` (lines 150-183): snapshot
the expired strategies, then run the per-record loop.  `now` is the
expiry-check instant and `exit_time` the completion timestamp (the source
reads `datetime.now()` again inside the loop).  Returns the new active
list paired with the list of records completed in this call. -/
def process_expired_strategies (now exit_time : ℤ)
    (getPrice : String → Option ℚ)
    (updateOk : String → ℚ → ℤ → ℚ → StrategyResult → String → Bool)
    (active : List BacktestStrategy) :
    List BacktestStrategy × List BacktestStrategy :=
  (get_expired_strategies now active).foldl
    (processOneExpired getPrice updateOk exit_time) (active, [])

end Tracker

namespace Analyzer

/-- Python's builtin `round` to 0 digits: round-half-to-even. -/
def pyRound (x : ℚ) : ℤ :=
  let f := ⌊x⌋
  let frac := x - (f : ℚ)
  if frac < 1/2 then f
  else if 1/2 < frac then f + 1
  else if f % 2 = 0 then f else f + 1

/-- Python `round(x, 2)`. -/
def round2 (x : ℚ) : ℚ := (pyRound (x * 100) : ℚ) / 100

/-- Python `round(x, 1)`. -/
def round1 (x : ℚ) : ℚ := (pyRound (x * 10) : ℚ) / 10

/-- Python `max`/`numpy.max` over a list (sources always apply it to a
non-empty list, where the 0 default is unreachable). -/
def listMax : List ℚ → ℚ
  | [] => 0
  | h :: t => t.foldl max h

/-- Python `min`/`numpy.min` over a list. -/
def listMin : List ℚ → ℚ
  | [] => 0
  | h :: t => t.foldl min h

/-- The `PerformanceMetrics` dataclass of `backtesting/models.py`.  All
fields are floats in the source; `profit_factor` can be `float('inf')`
(performance_analyzer.py line 45), so it is embedded as `WithTop ℚ`, with
`⊤` standing for `+∞`. -/
structure PerformanceMetrics where
  total_trades : ℕ
  winning_trades : ℕ
  losing_trades : ℕ
  breakeven_trades : ℕ
  win_rate : ℚ
  total_profit : ℚ
  total_loss : ℚ
  net_pnl : ℚ
  average_profit : ℚ
  average_loss : ℚ
  profit_factor : WithTop ℚ
  max_drawdown : ℚ
  sharpe_ratio : ℚ
  average_holding_period : ℚ
deriving DecidableEq

/-- `PerformanceAnalyzer._empty_metrics` (performance_analyzer.py lines
291-308): the all-zero metrics (note profit_factor is the finite 0, not
`⊤`). -/
def _empty_metrics : PerformanceMetrics :=
  { total_trades := 0, winning_trades := 0, losing_trades := 0,
    breakeven_trades := 0, win_rate := 0, total_profit := 0,
    total_loss := 0, net_pnl := 0, average_profit := 0, average_loss := 0,
    profit_factor := (0 : ℚ), max_drawdown := 0, sharpe_ratio := 0,
    average_holding_period := 0 }

/-- The list comprehension of line 34: final P&L values that are truthy
(non-None, non-zero) and positive. -/
def profitsOf (strategies : List BacktestStrategy) : List ℚ :=
  strategies.filterMap (fun s =>
    match s.final_pnl with
    | some p => if 0 < p then some p else none
    | none => none)

/-- The list comprehension of line 35: final P&L values that are truthy
and negative. -/
def lossesOf (strategies : List BacktestStrategy) : List ℚ :=
  strategies.filterMap (fun s =>
    match s.final_pnl with
    | some p => if p < 0 then some p else none
    | none => none)

/-- Line 37: `sum(profits) if profits else 0`. -/
def total_profitOf (strategies : List BacktestStrategy) : ℚ :=
  if profitsOf strategies = [] then 0 else (profitsOf strategies).sum

/-- Line 38: `abs(sum(losses)) if losses else 0`. -/
def total_lossOf (strategies : List BacktestStrategy) : ℚ :=
  if lossesOf strategies = [] then 0 else |(lossesOf strategies).sum|

/-- `PerformanceAnalyzer._calculate_cumulative_pnl` (lines 223-238):
running P&L total over the records sorted (stably) by entry_date, with
`final_pnl or 0` turning both None and 0 into 0. -/
def _calculate_cumulative_pnl (strategies : List BacktestStrategy) :
    List ℚ :=
  if strategies.isEmpty then []
  else
    ((strategies.mergeSort
        (fun a b => decide (a.entry_date ≤ b.entry_date))).foldl
      (fun acc s =>
        (acc.1 + s.final_pnl.getD 0, acc.2 ++ [acc.1 + s.final_pnl.getD 0]))
      ((0 : ℚ), ([] : List ℚ))).2

/-- One iteration of the drawdown walk of lines 248-252, on the state
(running peak, max drawdown so far). -/
def ddStep (acc : ℚ × ℚ) (value : ℚ) : ℚ × ℚ :=
  let peak := if value > acc.1 then value else acc.1
  let dd := if peak > 0 then (peak - value) / peak * 100 else 0
  (peak, max acc.2 dd)

/-- `PerformanceAnalyzer._calculate_max_drawdown` (lines 240-254): largest
percentage decline from the running peak of the cumulative P&L; 0 for the
empty list, and drawdown counts as 0 at any point where the peak is ≤ 0. -/
def _calculate_max_drawdown (cumulative_pnl : List ℚ) : ℚ :=
  match cumulative_pnl with
  | [] => 0
  | h :: _ => (cumulative_pnl.foldl ddStep (h, 0)).2

/-- `PerformanceAnalyzer._calculate_sharpe_ratio` (lines 256-269), with
`numpy.std`'s square root injected as `sqrt` (population standard
deviation: sqrt of the mean squared deviation). -/
def _calculate_sharpe_ratio (sqrt : ℚ → ℚ) (returns : List ℚ) : ℚ :=
  if returns.isEmpty ∨ returns.length < 2 then 0
  else
    let mean_return := returns.sum / (returns.length : ℚ)
    let std_return :=
      sqrt ((returns.map (fun r => (r - mean_return) ^ 2)).sum /
        (returns.length : ℚ))
    if std_return = 0 then 0 else mean_return / std_return

/-- Lines 56-62: holding periods in days for records with an exit_date
(entry_date, a datetime, is always truthy in the source). -/
def holding_periodsOf (strategies : List BacktestStrategy) : List ℚ :=
  strategies.filterMap (fun s =>
    s.exit_date.map (fun e => ((e - s.entry_date : ℤ) : ℚ)))

/-- `PerformanceAnalyzer.calculate_performance_metrics` (lines 19-79).
`sqrt` is the injected square root used by the Sharpe computation.  The
final structure applies Python's `round(..., 2)`/`round(..., 1)` exactly
as lines 64-79 do (round of `inf` is `inf`). -/
def calculate_performance_metrics (sqrt : ℚ → ℚ)
    (strategies : List BacktestStrategy) : PerformanceMetrics :=
  if strategies.isEmpty then _empty_metrics
  else
    let total_trades := strategies.length
    let winning_trades := (strategies.filter
      (fun s => s.result = some StrategyResult.PROFIT)).length
    let losing_trades := (strategies.filter
      (fun s => s.result = some StrategyResult.LOSS)).length
    let breakeven_trades := (strategies.filter
      (fun s => s.result = some StrategyResult.BREAKEVEN)).length
    let win_rate := if total_trades > 0 then
      (winning_trades : ℚ) / (total_trades : ℚ) * 100 else 0
    let total_profit := total_profitOf strategies
    let total_loss := total_lossOf strategies
    let net_pnl := total_profit - total_loss
    let average_profit := if profitsOf strategies = [] then 0
      else (profitsOf strategies).sum / ((profitsOf strategies).length : ℚ)
    let average_loss := if lossesOf strategies = [] then 0
      else (lossesOf strategies).sum / ((lossesOf strategies).length : ℚ)
    let profit_factor : WithTop ℚ :=
      if total_loss > 0 then ((total_profit / total_loss : ℚ) : WithTop ℚ)
      else ⊤
    let max_drawdown :=
      _calculate_max_drawdown (_calculate_cumulative_pnl strategies)
    let returns := strategies.filterMap (fun s => s.final_pnl)
    let sharpe := _calculate_sharpe_ratio sqrt returns
    let holding_periods := holding_periodsOf strategies
    let average_holding_period := if holding_periods = [] then 0
      else holding_periods.sum / (holding_periods.length : ℚ)
    { total_trades := total_trades, winning_trades := winning_trades,
      losing_trades := losing_trades, breakeven_trades := breakeven_trades,
      win_rate := round2 win_rate, total_profit := round2 total_profit,
      total_loss := round2 total_loss, net_pnl := round2 net_pnl,
      average_profit := round2 average_profit,
      average_loss := round2 average_loss,
      profit_factor := profit_factor.map round2,
      max_drawdown := round2 max_drawdown,
      sharpe_ratio := round2 sharpe,
      average_holding_period := round1 average_holding_period }

/-- In-place update of a Python dict entry, preserving insertion order:
`d.setdefault(k, init)` followed by mutating the value with `f`. -/
def assocUpdate {β : Type} (l : List (String × β)) (k : String) (init : β)
    (f : β → β) : List (String × β) :=
  match l with
  | [] => [(k, f init)]
  | (k2, v) :: rest =>
    if k2 = k then (k2, f v) :: rest else (k2, v) :: assocUpdate rest k init f

/-- Same as `assocUpdate`, for the month-keyed dict (integer keys). -/
def assocUpdateZ {β : Type} (l : List (ℤ × β)) (k : ℤ) (init : β)
    (f : β → β) : List (ℤ × β) :=
  match l with
  | [] => [(k, f init)]
  | (k2, v) :: rest =>
    if k2 = k then (k2, f v) :: rest else (k2, v) :: assocUpdateZ rest k init f

/-- One per-strategy-kind aggregation entry of
`_analyze_strategy_breakdown` (performance_analyzer.py lines 122-155). -/
structure BreakdownEntry where
  total : ℕ
  wins : ℕ
  losses : ℕ
  breakeven : ℕ
  total_pnl : ℚ
  avg_pnl : ℚ
  win_rate : ℚ
deriving DecidableEq

/-- `PerformanceAnalyzer._analyze_strategy_breakdown` (lines 122-155):
first pass accumulates counts and P&L per strategy_name (in first-seen
order, as a Python dict); second pass fills win_rate and avg_pnl and
rounds total_pnl. -/
def _analyze_strategy_breakdown (strategies : List BacktestStrategy) :
    List (String × BreakdownEntry) :=
  let base := strategies.foldl (fun acc s =>
    assocUpdate acc s.strategy_name
      ({ total := 0, wins := 0, losses := 0, breakeven := 0, total_pnl := 0,
         avg_pnl := 0, win_rate := 0 } : BreakdownEntry)
      (fun e =>
        let e2 := { e with total := e.total + 1,
                           total_pnl := e.total_pnl + s.final_pnl.getD 0 }
        if s.result = some StrategyResult.PROFIT then
          { e2 with wins := e2.wins + 1 }
        else if s.result = some StrategyResult.LOSS then
          { e2 with losses := e2.losses + 1 }
        else
          { e2 with breakeven := e2.breakeven + 1 })) []
  base.map (fun kv =>
    (kv.1,
      { kv.2 with
        win_rate := if kv.2.total > 0 then
          round2 ((kv.2.wins : ℚ) / (kv.2.total : ℚ) * 100) else 0,
        avg_pnl := if kv.2.total > 0 then
          round2 (kv.2.total_pnl / (kv.2.total : ℚ)) else 0,
        total_pnl := round2 kv.2.total_pnl }))

/-- One per-month aggregation entry of `_analyze_time_performance`
(lines 157-188). -/
structure MonthEntry where
  trades : ℕ
  pnl : ℚ
  wins : ℕ
  losses : ℕ
  win_rate : ℚ
deriving DecidableEq

/-- `PerformanceAnalyzer._analyze_time_performance` (lines 157-188),
grouping by the calendar month of entry_date.  The `strftime("%Y-%m")`
month key is computed by the injected `monthKey` (a datetime is always
truthy, so every record is counted). -/
def _analyze_time_performance (monthKey : ℤ → ℤ)
    (strategies : List BacktestStrategy) : List (ℤ × MonthEntry) :=
  if strategies.isEmpty then []
  else
    let base := strategies.foldl (fun acc s =>
      assocUpdateZ acc (monthKey s.entry_date)
        ({ trades := 0, pnl := 0, wins := 0, losses := 0,
           win_rate := 0 } : MonthEntry)
        (fun e =>
          let e2 := { e with trades := e.trades + 1,
                             pnl := e.pnl + s.final_pnl.getD 0 }
          if s.result = some StrategyResult.PROFIT then
            { e2 with wins := e2.wins + 1 }
          else if s.result = some StrategyResult.LOSS then
            { e2 with losses := e2.losses + 1 }
          else e2)) []
    base.map (fun kv =>
      (kv.1,
        { kv.2 with
          win_rate := if kv.2.trades > 0 then
            round2 ((kv.2.wins : ℚ) / (kv.2.trades : ℚ) * 100)
            else 0,
          pnl := round2 kv.2.pnl }))

/-- `numpy.percentile` with its default linear interpolation: sort, take
rank (n-1)·q/100, and interpolate between the neighbouring order
statistics. -/
def percentile (l : List ℚ) (q : ℚ) : ℚ :=
  let sorted := l.mergeSort (fun a b => decide (a ≤ b))
  let rank := ((sorted.length : ℚ) - 1) * q / 100
  let lo := ⌊rank⌋
  let frac := rank - (lo : ℚ)
  let vlo := sorted.getD lo.toNat 0
  let vhi := sorted.getD (lo.toNat + 1) vlo
  vlo + (vhi - vlo) * frac

/-- `PerformanceAnalyzer._calculate_max_consecutive_losses`
(lines 271-289): longest run of LOSS results scanning records sorted by
entry_date. -/
def _calculate_max_consecutive_losses (strategies : List BacktestStrategy) :
    ℕ :=
  if strategies.isEmpty then 0
  else
    ((strategies.mergeSort
        (fun a b => decide (a.entry_date ≤ b.entry_date))).foldl
      (fun acc s =>
        if s.result = some StrategyResult.LOSS then
          (max acc.1 (acc.2 + 1), acc.2 + 1)
        else (acc.1, 0)) ((0 : ℕ), (0 : ℕ))).1

/-- The risk section built by `_analyze_risk_metrics` (lines 190-221). -/
structure RiskMetrics where
  volatility : ℚ
  var_95 : ℚ
  max_consecutive_losses : ℕ
  largest_win : ℚ
  largest_loss : ℚ
  avg_trade : ℚ
deriving DecidableEq

/-- `PerformanceAnalyzer._analyze_risk_metrics` (lines 190-221).  Returns
`none` where the source returns the empty dict `{}` (no strategies, or no
non-None P&L values).  `numpy.std`'s square root is the injected `sqrt`. -/
def _analyze_risk_metrics (sqrt : ℚ → ℚ)
    (strategies : List BacktestStrategy) : Option RiskMetrics :=
  if strategies.isEmpty then none
  else
    let pnls := strategies.filterMap (fun s => s.final_pnl)
    if pnls.isEmpty then none
    else
      let mean := pnls.sum / (pnls.length : ℚ)
      let volatility :=
        sqrt ((pnls.map (fun p => (p - mean) ^ 2)).sum / (pnls.length : ℚ))
      some { volatility := round2 volatility,
             var_95 := round2 (percentile pnls 5),
             max_consecutive_losses :=
               _calculate_max_consecutive_losses strategies,
             largest_win := round2 (listMax pnls),
             largest_loss := round2 (listMin pnls),
             avg_trade := round2 mean }

/-- The report dict built by `generate_performance_report` (lines 98-120).
The `summary` and `detailed_metrics` sections of the source are
string-formatted projections of one `PerformanceMetrics` value; the
embedding keeps the underlying numbers and omits only the presentation
formatting. -/
structure PerformanceReport where
  summary : PerformanceMetrics
  strategy_breakdown : List (String × BreakdownEntry)
  time_analysis : List (ℤ × MonthEntry)
  risk_analysis : Option RiskMetrics
deriving DecidableEq

/-- Result type of `generate_performance_report`: the source returns
either `{"error": msg}` or the report dict. -/
inductive ReportResult where
  | error (msg : String)
  | report (r : PerformanceReport)
deriving DecidableEq

/-- `PerformanceAnalyzer.generate_performance_report` (lines 81-120):
the explicit no-data result for an empty input (lines 83-84), otherwise
the assembled report. -/
def generate_performance_report (sqrt : ℚ → ℚ) (monthKey : ℤ → ℤ)
    (strategies : List BacktestStrategy) : ReportResult :=
  if strategies.isEmpty then ReportResult.error "No strategies to analyze"
  else
    ReportResult.report
      { summary := calculate_performance_metrics sqrt strategies,
        strategy_breakdown := _analyze_strategy_breakdown strategies,
        time_analysis := _analyze_time_performance monthKey strategies,
        risk_analysis := _analyze_risk_metrics sqrt strategies }

end Analyzer

/-- Sample record used by concrete witnesses: a one-contract 145/155 call
debit spread bought for a 2.0 net debit, with the strategy kind left as a
parameter. -/
def sampleRecord (strategy_name : String) : BacktestStrategy :=
  { id := "s1", symbol := "SPY", strategy_name := strategy_name,
    entry_date := 0, expiration_date := 30, entry_price := 150,
    lower_strike := 145, upper_strike := 155, lower_premium := 3,
    upper_premium := 1, contracts := 1, initial_cost := 2, max_profit := 8,
    max_loss := 2, status := StrategyStatus.ACTIVE }

/-- A completed breakeven record: the C1 spread settled at 147 with a
final P&L of exactly 0. -/
def breakevenRecord : BacktestStrategy :=
  { sampleRecord "Call Debit Spread" with
    exit_price := some 147, exit_date := some 30, final_pnl := some 0,
    result := some StrategyResult.BREAKEVEN,
    status := StrategyStatus.COMPLETED }

/-- A completed losing record: the C1 spread settled at 140 with a final
P&L of -2. -/
def losingRecord : BacktestStrategy :=
  { sampleRecord "Call Debit Spread" with
    exit_price := some 140, exit_date := some 30, final_pnl := some (-2),
    result := some StrategyResult.LOSS,
    status := StrategyStatus.COMPLETED }

end OSA

namespace OSA.Analyzer

lemma ddStep_snd_le (acc : ℚ × ℚ) (v : ℚ) : acc.2 ≤ (ddStep acc v).2 :=
  le_max_left _ _

lemma foldl_ddStep_snd_mono (l : List ℚ) (acc : ℚ × ℚ) :
    acc.2 ≤ (l.foldl ddStep acc).2 := by
  induction l generalizing acc with
  | nil => exact le_refl _
  | cons v l ih => exact le_trans (ddStep_snd_le acc v) (ih _)

lemma ddStep_snd_le_100 (acc : ℚ × ℚ) (v : ℚ) (hacc : acc.2 ≤ 100)
    (hv : 0 ≤ v) : (ddStep acc v).2 ≤ 100 := by
  unfold ddStep
  dsimp only
  refine max_le hacc ?_
  have hvp : v ≤ (if v > acc.1 then v else acc.1) := by
    split <;> linarith
  generalize hP : (if v > acc.1 then v else acc.1) = P at hvp ⊢
  split
  case isTrue h =>
    have h1 : (P - v) / P ≤ 1 := (div_le_one h).mpr (by linarith)
    linarith
  case isFalse h => norm_num

lemma foldl_ddStep_snd_le_100 (l : List ℚ) (acc : ℚ × ℚ)
    (hacc : acc.2 ≤ 100) (hl : ∀ v ∈ l, 0 ≤ v) :
    (l.foldl ddStep acc).2 ≤ 100 := by
  induction l generalizing acc with
  | nil => exact hacc
  | cons v l ih =>
    exact ih _ (ddStep_snd_le_100 acc v hacc (hl v (List.mem_cons_self v l)))
      (fun x hx => hl x (List.mem_cons_of_mem v hx))

lemma total_lossOf_nonneg (ss : List BacktestStrategy) :
    0 ≤ total_lossOf ss := by
  unfold total_lossOf
  split
  · exact le_refl 0
  · exact abs_nonneg _

end OSA.Analyzer

namespace OSA.Tracker

lemma completeStrategy_id (s : BacktestStrategy) (p : ℚ) (t : ℤ) :
    (completeStrategy s p t).id = s.id := rfl

lemma completeStrategy_expiration (s : BacktestStrategy) (p : ℚ) (t : ℤ) :
    (completeStrategy s p t).expiration_date = s.expiration_date := rfl

lemma processOneExpired_of_none (g : String → Option ℚ)
    (u : String → ℚ → ℤ → ℚ → StrategyResult → String → Bool) (t : ℤ)
    (acc : List BacktestStrategy × List BacktestStrategy)
    (s : BacktestStrategy) (h : g s.symbol = none) :
    processOneExpired g u t acc s = acc := by
  unfold processOneExpired
  rw [h]

lemma processOneExpired_of_fail (g : String → Option ℚ)
    (u : String → ℚ → ℤ → ℚ → StrategyResult → String → Bool) (t : ℤ)
    (acc : List BacktestStrategy × List BacktestStrategy)
    (s : BacktestStrategy) (p : ℚ) (hg : g s.symbol = some p)
    (hu : u s.id p t (calculate_strategy_result s p).1
            (calculate_strategy_result s p).2.1
            (calculate_strategy_result s p).2.2 = false) :
    processOneExpired g u t acc s =
      (acc.1.map (fun x => if x.id = s.id then completeStrategy s p t else x),
       acc.2) := by
  unfold processOneExpired
  rw [hg]
  simp only [hu, Bool.false_eq_true, if_false]

lemma mem_processOneExpired_fst_of_ne (g : String → Option ℚ)
    (u : String → ℚ → ℤ → ℚ → StrategyResult → String → Bool) (t : ℤ)
    (acc : List BacktestStrategy × List BacktestStrategy)
    (s r : BacktestStrategy) (hr : r ∈ acc.1) (hne : r.id ≠ s.id) :
    r ∈ (processOneExpired g u t acc s).1 := by
  unfold processOneExpired
  cases hg : g s.symbol with
  | none => exact hr
  | some p =>
    have hmap : r ∈ acc.1.map
        (fun x => if x.id = s.id then completeStrategy s p t else x) := by
      have := List.mem_map_of_mem
        (f := fun x => if x.id = s.id then completeStrategy s p t else x) hr
      simpa only [if_neg hne] using this
    by_cases hu : u s.id p t (calculate_strategy_result s p).1
        (calculate_strategy_result s p).2.1
        (calculate_strategy_result s p).2.2 = true
    · simp only [hu, if_true]
      exact List.mem_filter.mpr ⟨hmap, by simpa using hne⟩
    · simp only [hu, if_false]
      exact hmap

lemma processOneExpired_snd_ids (g : String → Option ℚ)
    (u : String → ℚ → ℤ → ℚ → StrategyResult → String → Bool) (t : ℤ)
    (acc : List BacktestStrategy × List BacktestStrategy)
    (s q : BacktestStrategy) (hq : q ∈ (processOneExpired g u t acc s).2) :
    q ∈ acc.2 ∨ q.id = s.id := by
  unfold processOneExpired at hq
  cases hg : g s.symbol with
  | none =>
    rw [hg] at hq
    exact Or.inl hq
  | some p =>
    rw [hg] at hq
    by_cases hu : u s.id p t (calculate_strategy_result s p).1
        (calculate_strategy_result s p).2.1
        (calculate_strategy_result s p).2.2 = true
    · simp only [hu, if_true] at hq
      rcases List.mem_append.mp hq with h | h
      · exact Or.inl h
      · right
        rw [List.mem_singleton.mp h]
        rfl
    · simp only [hu, if_false] at hq
      exact Or.inl hq

lemma mem_foldl_process_fst (g : String → Option ℚ)
    (u : String → ℚ → ℤ → ℚ → StrategyResult → String → Bool) (t : ℤ)
    (l : List BacktestStrategy)
    (acc : List BacktestStrategy × List BacktestStrategy)
    (r : BacktestStrategy) (hr : r ∈ acc.1)
    (h : ∀ e ∈ l, r.id ≠ e.id) :
    r ∈ (l.foldl (processOneExpired g u t) acc).1 := by
  induction l generalizing acc with
  | nil => exact hr
  | cons e l ih =>
    rw [List.foldl_cons]
    exact ih _ (mem_processOneExpired_fst_of_ne g u t acc e r hr
        (h e (List.mem_cons_self e l)))
      (fun x hx => h x (List.mem_cons_of_mem e hx))

lemma foldl_process_snd_ids (g : String → Option ℚ)
    (u : String → ℚ → ℤ → ℚ → StrategyResult → String → Bool) (t : ℤ)
    (l : List BacktestStrategy)
    (acc : List BacktestStrategy × List BacktestStrategy)
    (q : BacktestStrategy)
    (hq : q ∈ (l.foldl (processOneExpired g u t) acc).2) :
    q ∈ acc.2 ∨ q.id ∈ l.map (fun x => x.id) := by
  induction l generalizing acc with
  | nil => exact Or.inl hq
  | cons e l ih =>
    rw [List.foldl_cons] at hq
    rcases ih _ hq with h | h
    · rcases processOneExpired_snd_ids g u t acc e q h with h2 | h2
      · exact Or.inl h2
      · exact Or.inr (by simp [h2])
    · exact Or.inr (List.mem_cons_of_mem _ h)

lemma filter_replace_eq (l : List BacktestStrategy) (i : String)
    (s2 : BacktestStrategy) (hs2 : s2.id = i) :
    (l.map (fun x => if x.id = i then s2 else x)).filter
        (fun x => x.id ≠ i) =
      l.filter (fun x => x.id ≠ i) := by
  induction l with
  | nil => rfl
  | cons a l ih =>
    by_cases h : a.id = i
    · simp only [List.map_cons, if_pos h, List.filter_cons]
      rw [ih]
      simp [h, hs2]
    · simp only [List.map_cons, if_neg h, List.filter_cons]
      rw [ih]

lemma processOneExpired_fst_of_success (g : String → Option ℚ)
    (u : String → ℚ → ℤ → ℚ → StrategyResult → String → Bool) (t : ℤ)
    (acc : List BacktestStrategy × List BacktestStrategy)
    (s : BacktestStrategy) (hg : (g s.symbol).isSome)
    (hu : ∀ a b c d e f, u a b c d e f = true) :
    (processOneExpired g u t acc s).1 =
      acc.1.filter (fun x => x.id ≠ s.id) := by
  obtain ⟨p, hp⟩ := Option.isSome_iff_exists.mp hg
  unfold processOneExpired
  rw [hp]
  simp only [hu, if_true]
  exact filter_replace_eq acc.1 s.id (completeStrategy s p t) rfl

lemma mem_foldl_process_fst_of_success (g : String → Option ℚ)
    (u : String → ℚ → ℤ → ℚ → StrategyResult → String → Bool) (t : ℤ)
    (l : List BacktestStrategy)
    (acc : List BacktestStrategy × List BacktestStrategy)
    (r : BacktestStrategy)
    (hg : ∀ e ∈ l, (g e.symbol).isSome)
    (hu : ∀ a b c d e f, u a b c d e f = true)
    (hr : r ∈ (l.foldl (processOneExpired g u t) acc).1) :
    r ∈ acc.1 ∧ ∀ e ∈ l, r.id ≠ e.id := by
  induction l generalizing acc with
  | nil => exact ⟨hr, fun e he => absurd he (List.not_mem_nil e)⟩
  | cons e l ih =>
    rw [List.foldl_cons] at hr
    obtain ⟨h1, h2⟩ := ih _ (fun x hx => hg x (List.mem_cons_of_mem e hx)) hr
    rw [processOneExpired_fst_of_success g u t acc e
        (hg e (List.mem_cons_self e l)) hu] at h1
    obtain ⟨h3, h4⟩ := List.mem_filter.mp h1
    refine ⟨h3, fun x hx => ?_⟩
    rcases List.mem_cons.mp hx with h | h
    · subst h
      simpa using h4
    · exact h2 x h

end OSA.Tracker

namespace OSA.Core

/-- `OptionType` of `core/options_strategies.py`. -/
inductive OptionType where
  | CALL
  | PUT
deriving DecidableEq, Repr

/-- The `OptionLeg` dataclass of `core/options_strategies.py`. -/
structure OptionLeg where
  option_type : OptionType
  strike : ℚ
  premium : ℚ
  quantity : ℤ
  expiration : String
deriving DecidableEq, Repr

instance : Inhabited OptionLeg :=
  ⟨{ option_type := OptionType.CALL, strike := 0, premium := 0,
     quantity := 0, expiration := "" }⟩

/-- The `StrategyResult` dataclass of `core/options_strategies.py` (the
payoff-analysis result, distinct from the backtesting outcome enum).  The
`payoff_at_expiration` dict is the price-grid/payoff zip in grid order. -/
structure StrategyResult where
  breakeven_points : List ℚ
  max_profit : ℚ
  max_loss : ℚ
  profit_probability : ℚ
  payoff_at_expiration : List (ℚ × ℚ)
  strategy_name : String
deriving DecidableEq, Repr

/-- `numpy.linspace a b n`: n evenly spaced points from a to b
inclusive. -/
def linspace (a b : ℚ) (n : ℕ) : List ℚ :=
  (List.range n).map (fun i : ℕ => a + (b - a) * (i : ℚ) / ((n : ℚ) - 1))

/-- `CallDebitSpread.add_legs` (lines 78-83): long call at the lower
strike, short call at the upper strike.  No validation of any kind is
performed on the strikes or premiums. -/
def CallDebitSpread.add_legs (lower_strike upper_strike : ℚ)
    (lower_premium upper_premium : ℚ) (expiration : String) :
    List OptionLeg :=
  [{ option_type := OptionType.CALL, strike := lower_strike,
     premium := lower_premium, quantity := 1, expiration := expiration },
   { option_type := OptionType.CALL, strike := upper_strike,
     premium := upper_premium, quantity := -1, expiration := expiration }]

/-- `CallDebitSpread.calculate_payoff` (lines 85-93) at one spot price:
long-leg intrinsic minus short-leg intrinsic minus the net debit. -/
def CallDebitSpread.calculate_payoff (legs : List OptionLeg) (P : ℚ) : ℚ :=
  let long_call := legs.getD 0 default
  let short_call := legs.getD 1 default
  let long_payoff := max (P - long_call.strike) 0
  let short_payoff := -(max (P - short_call.strike) 0)
  let net_debit := long_call.premium - short_call.premium
  long_payoff + short_payoff - net_debit

/-- `OptionsStrategy._find_breakevens` (lines 62-68): for each adjacent
grid pair with a payoff sign change, the linearly interpolated zero
crossing rounded to 2 decimals. -/
def _find_breakevens (prices payoffs : List ℚ) : List ℚ :=
  (List.range (payoffs.length - 1)).filterMap (fun i =>
    if payoffs.getD i 0 * payoffs.getD (i + 1) 0 < 0 then
      some (Analyzer.round2 (prices.getD i 0 -
        payoffs.getD i 0 * (prices.getD (i + 1) 0 - prices.getD i 0) /
          (payoffs.getD (i + 1) 0 - payoffs.getD i 0)))
    else none)

/-- `OptionsStrategy._calc_profit_prob` (lines 70-71): fraction of grid
points with positive payoff. -/
def _calc_profit_prob (payoffs : List ℚ) : ℚ :=
  if payoffs.length > 0 then
    ((payoffs.filter (fun p => p > 0)).length : ℚ) / (payoffs.length : ℚ)
  else 0

/-- One Python dict insertion `d[k] = v` on an insertion-ordered
association list: a repeated key overwrites the stored value in place, a
fresh key is appended. -/
def dictInsert (l : List (ℚ × ℚ)) (k : ℚ) (v : ℚ) : List (ℚ × ℚ) :=
  match l with
  | [] => [(k, v)]
  | (k2, v2) :: rest =>
    if k2 = k then (k2, v) :: rest else (k2, v2) :: dictInsert rest k v

/-- Python `dict(pairs)`: keys keep their first-insertion position and a
repeated key keeps only its last value, so duplicate keys collapse. -/
def pyDict (pairs : List (ℚ × ℚ)) : List (ℚ × ℚ) :=
  pairs.foldl (fun d kv => dictInsert d kv.1 kv.2) []

/-- `OptionsStrategy.analyze` (lines 49-60), parameterized by the
subclass's `calculate_payoff` exactly as the abstract base class is: a
100-point grid over [0.7·S, 1.3·S], its payoffs, and the derived
statistics.  `payoff_at_expiration` is `dict(zip(spot_range, payoffs))`,
so duplicate grid prices collapse to one dict entry (this happens exactly
when the underlying price is 0, making every grid point 0).  There is no
validation and no failure path: every input reaches the payoff
computation. -/
def analyze (calculate_payoff : ℚ → ℚ) (underlying_price : ℚ)
    (strategy_name : String) : StrategyResult :=
  let spot_range :=
    linspace (underlying_price * (7 / 10)) (underlying_price * (13 / 10)) 100
  let payoffs := spot_range.map calculate_payoff
  { breakeven_points := _find_breakevens spot_range payoffs,
    max_profit := Analyzer.listMax payoffs,
    max_loss := Analyzer.listMin payoffs,
    profit_probability := _calc_profit_prob payoffs,
    payoff_at_expiration := pyDict (spot_range.zip payoffs),
    strategy_name := strategy_name }

/-- Modelled from the spec: the validation the spec prescribes for
spreads — "strikes must satisfy lower < upper; strikes and premiums must
be positive", with violations failing as an `InvalidSpreadError`.  This
predicate has no counterpart in the source: `options_strategies.py`
performs no validation and defines no `InvalidSpreadError` (the name
appears nowhere in the repository). -/
def specValidSpread (lower_strike upper_strike : ℚ)
    (lower_premium upper_premium : ℚ) : Prop :=
  lower_strike < upper_strike ∧ 0 < lower_strike ∧ 0 < upper_strike ∧
    0 < lower_premium ∧ 0 < upper_premium

instance (a b c d : ℚ) : Decidable (specValidSpread a b c d) :=
  inferInstanceAs (Decidable (_ ∧ _ ∧ _ ∧ _ ∧ _))

lemma linspace_length (a b : ℚ) (n : ℕ) : (linspace a b n).length = n := by
  unfold linspace
  rw [List.length_map, List.length_range]

lemma linspace_nodup (a b : ℚ) (hab : a ≠ b) : (linspace a b 100).Nodup := by
  unfold linspace
  refine List.Nodup.map ?_ (List.nodup_range 100)
  intro i j hij
  have hba : b - a ≠ 0 := sub_ne_zero.mpr (Ne.symm hab)
  have hc : (((100 : ℕ) : ℚ) - 1) ≠ 0 := by norm_num
  have h5 : (b - a) * (i : ℚ) / (((100 : ℕ) : ℚ) - 1) =
      (b - a) * (j : ℚ) / (((100 : ℕ) : ℚ) - 1) := by linarith
  field_simp at h5
  rcases h5 with h | h
  · exact_mod_cast h
  · exact absurd h hba

lemma mem_dictInsert (l : List (ℚ × ℚ)) (k v : ℚ) (pr : ℚ × ℚ)
    (h : pr ∈ dictInsert l k v) : pr ∈ l ∨ pr = (k, v) := by
  induction l with
  | nil =>
    right
    simpa [dictInsert] using h
  | cons p rest ih =>
    obtain ⟨k2, v2⟩ := p
    by_cases hk : k2 = k
    · rw [dictInsert, if_pos hk] at h
      rcases List.mem_cons.mp h with h2 | h2
      · right
        rw [h2, hk]
      · exact Or.inl (List.mem_cons_of_mem _ h2)
    · rw [dictInsert, if_neg hk] at h
      rcases List.mem_cons.mp h with h2 | h2
      · exact Or.inl (h2 ▸ List.mem_cons_self _ _)
      · rcases ih h2 with h3 | h3
        · exact Or.inl (List.mem_cons_of_mem _ h3)
        · exact Or.inr h3

lemma mem_foldl_dictInsert (pairs : List (ℚ × ℚ)) :
    ∀ d : List (ℚ × ℚ), ∀ pr ∈ pairs.foldl
      (fun d2 kv => dictInsert d2 kv.1 kv.2) d, pr ∈ d ∨ pr ∈ pairs := by
  induction pairs with
  | nil => exact fun d pr h => Or.inl h
  | cons kv rest ih =>
    intro d pr h
    rcases ih _ pr h with h2 | h2
    · rcases mem_dictInsert d kv.1 kv.2 pr h2 with h3 | h3
      · exact Or.inl h3
      · right
        rw [h3]
        exact List.mem_cons_self kv rest
    · exact Or.inr (List.mem_cons_of_mem kv h2)

lemma mem_pyDict (pairs : List (ℚ × ℚ)) (pr : ℚ × ℚ)
    (h : pr ∈ pyDict pairs) : pr ∈ pairs := by
  rcases mem_foldl_dictInsert pairs [] pr h with h2 | h2
  · exact absurd h2 (List.not_mem_nil pr)
  · exact h2

lemma dictInsert_of_not_mem (l : List (ℚ × ℚ)) (k v : ℚ)
    (h : k ∉ l.map Prod.fst) : dictInsert l k v = l ++ [(k, v)] := by
  induction l with
  | nil => rfl
  | cons p rest ih =>
    obtain ⟨k2, v2⟩ := p
    simp only [List.map_cons, List.mem_cons, not_or] at h
    rw [dictInsert, if_neg (fun he => h.1 he.symm), ih h.2,
      List.cons_append]

lemma foldl_dictInsert_of_nodup (pairs : List (ℚ × ℚ)) :
    ∀ d : List (ℚ × ℚ), (∀ kv ∈ pairs, kv.1 ∉ d.map Prod.fst) →
    (pairs.map Prod.fst).Nodup →
    pairs.foldl (fun d2 kv => dictInsert d2 kv.1 kv.2) d = d ++ pairs := by
  induction pairs with
  | nil =>
    intro d _ _
    simp
  | cons kv rest ih =>
    intro d hd hn
    rw [List.map_cons, List.nodup_cons] at hn
    rw [List.foldl_cons,
      dictInsert_of_not_mem d kv.1 kv.2 (hd kv (List.mem_cons_self kv rest))]
    have hd2 : ∀ kv2 ∈ rest, kv2.1 ∉ (d ++ [(kv.1, kv.2)]).map Prod.fst := by
      intro kv2 hkv2
      rw [List.map_append]
      intro hmem
      rcases List.mem_append.mp hmem with hcase | hcase
      · exact hd kv2 (List.mem_cons_of_mem kv hkv2) hcase
      · have heq : kv2.1 = kv.1 := by simpa using hcase
        exact hn.1 (heq ▸ List.mem_map_of_mem (f := Prod.fst) hkv2)
    rw [ih (d ++ [(kv.1, kv.2)]) hd2 hn.2, List.append_assoc]
    rfl

lemma pyDict_eq_of_nodup_keys (pairs : List (ℚ × ℚ))
    (hn : (pairs.map Prod.fst).Nodup) : pyDict pairs = pairs := by
  unfold pyDict
  have h := foldl_dictInsert_of_nodup pairs []
    (fun kv _ => List.not_mem_nil kv.1) hn
  simpa using h

lemma analyze_payoff_def (f : ℚ → ℚ) (S : ℚ) (name : String) :
    (analyze f S name).payoff_at_expiration =
      pyDict ((linspace (S * (7 / 10)) (S * (13 / 10)) 100).zip
        ((linspace (S * (7 / 10)) (S * (13 / 10)) 100).map f)) := by
  simp only [analyze]

lemma analyze_payoff_eq (f : ℚ → ℚ) (S : ℚ) (name : String) (hS : S ≠ 0) :
    (analyze f S name).payoff_at_expiration =
      (linspace (S * (7 / 10)) (S * (13 / 10)) 100).zip
        ((linspace (S * (7 / 10)) (S * (13 / 10)) 100).map f) := by
  have hne : S * (7 / 10) ≠ S * (13 / 10) := by
    intro heq
    apply hS
    linarith
  have hlen : (linspace (S * (7 / 10)) (S * (13 / 10)) 100).length ≤
      ((linspace (S * (7 / 10)) (S * (13 / 10)) 100).map f).length := by
    rw [List.length_map]
  have hkeys := List.map_fst_zip _ _ hlen
  have hnd : (((linspace (S * (7 / 10)) (S * (13 / 10)) 100).zip
      ((linspace (S * (7 / 10)) (S * (13 / 10)) 100).map f)).map
        Prod.fst).Nodup := by
    rw [hkeys]
    exact linspace_nodup _ _ hne
  rw [analyze_payoff_def]
  exact pyDict_eq_of_nodup_keys _ hnd

lemma foldl_max_le_self (t : List ℚ) (a : ℚ) : a ≤ t.foldl max a := by
  induction t generalizing a with
  | nil => exact le_refl a
  | cons b t ih => exact le_trans (le_max_left a b) (ih (max a b))

lemma mem_le_foldl_max (t : List ℚ) (a x : ℚ) (hx : x ∈ t) :
    x ≤ t.foldl max a := by
  induction t generalizing a with
  | nil => cases hx
  | cons b t ih =>
    rcases List.mem_cons.mp hx with h | h
    · subst h
      exact le_trans (le_max_right a x) (foldl_max_le_self t (max a x))
    · exact ih (max a b) h

lemma le_listMax (l : List ℚ) (x : ℚ) (hx : x ∈ l) :
    x ≤ Analyzer.listMax l := by
  match l with
  | h :: t =>
    show x ≤ t.foldl max h
    rcases List.mem_cons.mp hx with h2 | h2
    · subst h2
      exact foldl_max_le_self t x
    · exact mem_le_foldl_max t h x h2

lemma snd_eq_of_mem_zip_map (g : ℚ → ℚ) (l : List ℚ) (pr : ℚ × ℚ)
    (h : pr ∈ l.zip (l.map g)) : pr.2 = g pr.1 := by
  induction l with
  | nil => cases h
  | cons a l ih =>
    rcases List.mem_cons.mp h with h2 | h2
    · rw [h2]
    · exact ih h2

end OSA.Core

namespace OSA

/-- C1: a Call Debit Spread record with lower_strike=145, upper_strike=155,
lower_premium=3.0, upper_premium=1.0, contracts=1 gets initial_cost=2.0,
max_profit=8.0, max_loss=2.0, and `calculate_strategy_result` settles it to
pnl=8.0 PROFIT at price 160, pnl=-2.0 LOSS at price 140, and pnl=0
BREAKEVEN at price 147. -/
theorem call_debit_scenario_settlement :
    (Engine.add_strategy_for_backtesting "s1" "SPY" "Call Debit Spread" 0 0 30
        150 145 155 3 1 1 []).map
      (fun r =>
        (r.initial_cost, r.max_profit, r.max_loss,
         Tracker.calculate_strategy_result r 160,
         Tracker.calculate_strategy_result r 140,
         Tracker.calculate_strategy_result r 147)) =
    some (2, 8, 2,
      (8, StrategyResult.PROFIT, "Price above upper strike - max profit"),
      (-2, StrategyResult.LOSS, "Price below lower strike - max loss"),
      (0, StrategyResult.BREAKEVEN, "Price at breakeven point")) := by
  norm_num [Engine.add_strategy_for_backtesting, Tracker.calculate_strategy_result]

/-- C8: for a record whose strategy kind is neither "Call Debit Spread" nor
"Put Debit Spread", `calculate_strategy_result` returns pnl 0, BREAKEVEN,
and the non-empty reason "Unknown strategy type" (it does not raise). -/
theorem unknown_strategy_settles_breakeven (s : BacktestStrategy) (p : ℚ)
    (h1 : s.strategy_name ≠ "Call Debit Spread")
    (h2 : s.strategy_name ≠ "Put Debit Spread") :
    Tracker.calculate_strategy_result s p =
      (0, StrategyResult.BREAKEVEN, "Unknown strategy type") ∧
    "Unknown strategy type" ≠ "" := by
  refine ⟨?_, by decide⟩
  unfold Tracker.calculate_strategy_result
  rw [if_neg h1, if_neg h2]

/-- Witness for C8 at the concrete kind "Iron Condor". -/
theorem unknown_strategy_settles_breakeven_witness :
    Tracker.calculate_strategy_result (sampleRecord "Iron Condor") 150 =
      (0, StrategyResult.BREAKEVEN, "Unknown strategy type") ∧
    "Unknown strategy type" ≠ "" :=
  unknown_strategy_settles_breakeven (sampleRecord "Iron Condor") 150
    (by decide) (by decide)

/-- C10: every record built by `add_strategy_for_backtesting` for a
supported kind satisfies initial_cost = max_loss and
max_profit + max_loss = (upper_strike - lower_strike) * contracts. -/
theorem record_cost_profit_invariant
    (id sym name : String) (ed ca xd : ℤ) (ep lo hi lp up : ℚ) (c : ℤ)
    (ma : List (String × String)) (r : BacktestStrategy)
    (hname : name = "Call Debit Spread" ∨ name = "Put Debit Spread")
    (hr : Engine.add_strategy_for_backtesting id sym name ed ca xd
            ep lo hi lp up c ma = some r) :
    r.initial_cost = r.max_loss ∧
    r.max_profit + r.max_loss = (hi - lo) * (c : ℚ) := by
  rcases hname with h | h <;> subst h <;>
    simp only [Engine.add_strategy_for_backtesting, String.reduceEq,
      reduceIte, Option.some.injEq] at hr <;> subst hr <;>
    refine ⟨rfl, ?_⟩
  · show (hi - lo - (lp - up)) * (c : ℚ) + (lp - up) * (c : ℚ) = (hi - lo) * (c : ℚ)
    ring
  · show (hi - lo - (up - lp)) * (c : ℚ) + (up - lp) * (c : ℚ) = (hi - lo) * (c : ℚ)
    ring

/-- C3: with every price lookup and store update succeeding, a second
`process_expired_strategies` call right after a first one (same expiry
instant, same price source) returns an empty completed list and leaves the
active set unchanged, and no id completed by the first call is still
active — no record is settled twice. -/
theorem process_expired_idempotent (now t1 t2 : ℤ)
    (getPrice : String → Option ℚ)
    (updateOk : String → ℚ → ℤ → ℚ → StrategyResult → String → Bool)
    (active : List BacktestStrategy)
    (hprice : ∀ sym, (getPrice sym).isSome)
    (hupd : ∀ a b c d e f, updateOk a b c d e f = true) :
    (Tracker.process_expired_strategies now t2 getPrice updateOk
        (Tracker.process_expired_strategies now t1 getPrice updateOk
          active).1).2 = [] ∧
    (Tracker.process_expired_strategies now t2 getPrice updateOk
        (Tracker.process_expired_strategies now t1 getPrice updateOk
          active).1).1 =
      (Tracker.process_expired_strategies now t1 getPrice updateOk
        active).1 ∧
    ∀ q ∈ (Tracker.process_expired_strategies now t1 getPrice updateOk
            active).2,
      ∀ r ∈ (Tracker.process_expired_strategies now t1 getPrice updateOk
              active).1,
        r.id ≠ q.id := by
  have hmem : ∀ r ∈ (Tracker.process_expired_strategies now t1 getPrice
      updateOk active).1,
      r ∈ active ∧ ∀ e ∈ Tracker.get_expired_strategies now active,
        r.id ≠ e.id := by
    intro r hr
    exact Tracker.mem_foldl_process_fst_of_success getPrice updateOk t1 _ _ r
      (fun e _ => hprice e.symbol) hupd hr
  have hnexp : ∀ r ∈ (Tracker.process_expired_strategies now t1 getPrice
      updateOk active).1, ¬ (r.expiration_date ≤ now) := by
    intro r hr hle
    obtain ⟨h1, h2⟩ := hmem r hr
    exact h2 r (List.mem_filter.mpr ⟨h1, by simpa using hle⟩) rfl
  have hexp2 : Tracker.get_expired_strategies now
      (Tracker.process_expired_strategies now t1 getPrice updateOk
        active).1 = [] := by
    refine List.filter_eq_nil_iff.mpr ?_
    intro r hr
    simpa using hnexp r hr
  have key : ∀ (Y : List BacktestStrategy) (t : ℤ),
      Tracker.get_expired_strategies now Y = [] →
      Tracker.process_expired_strategies now t getPrice updateOk Y =
        (Y, []) := by
    intro Y t h
    unfold Tracker.process_expired_strategies
    rw [h, List.foldl_nil]
  refine ⟨?_, ?_, ?_⟩
  · rw [key _ t2 hexp2]
  · rw [key _ t2 hexp2]
  · intro q hq r hr
    obtain ⟨_, h2⟩ := hmem r hr
    rcases Tracker.foldl_process_snd_ids getPrice updateOk t1 _ _ q hq
      with h | h
    · exact absurd h (List.not_mem_nil q)
    · obtain ⟨e, he, heq⟩ := List.mem_map.mp h
      intro hcontra
      exact h2 e he (hcontra.trans heq.symm)

/-- C2 (amended): in `process_expired_strategies`, an expired record whose
price lookup fails is left in the active set completely unchanged and is
not returned; an expired record whose store update fails (after a
successful price lookup at price `p`) is also left in the active set and
not returned, but with its in-memory completion fields already set
(`completeStrategy`): partial completion IS visible in the active set in
the store-failure case. -/
theorem expired_failure_leaves_record_active (now t : ℤ)
    (getPrice : String → Option ℚ)
    (updateOk : String → ℚ → ℤ → ℚ → StrategyResult → String → Bool)
    (active : List BacktestStrategy) (s : BacktestStrategy)
    (hnodup : (active.map (fun x => x.id)).Nodup)
    (hs : s ∈ active) (hexp : s.expiration_date ≤ now) :
    (getPrice s.symbol = none →
      s ∈ (Tracker.process_expired_strategies now t getPrice updateOk
            active).1 ∧
      ∀ q ∈ (Tracker.process_expired_strategies now t getPrice updateOk
              active).2, q.id ≠ s.id) ∧
    (∀ p, getPrice s.symbol = some p →
      updateOk s.id p t (Tracker.calculate_strategy_result s p).1
          (Tracker.calculate_strategy_result s p).2.1
          (Tracker.calculate_strategy_result s p).2.2 = false →
      Tracker.completeStrategy s p t ∈
        (Tracker.process_expired_strategies now t getPrice updateOk
          active).1 ∧
      ∀ q ∈ (Tracker.process_expired_strategies now t getPrice updateOk
              active).2, q.id ≠ s.id) := by
  have hsexp : s ∈ Tracker.get_expired_strategies now active :=
    List.mem_filter.mpr ⟨hs, by simpa using hexp⟩
  obtain ⟨l1, l2, hsplit⟩ := List.append_of_mem hsexp
  have hnodupExp : ((Tracker.get_expired_strategies now active).map
      (fun x => x.id)).Nodup :=
    ((List.filter_sublist active).map (fun x => x.id)).nodup hnodup
  rw [hsplit, List.map_append, List.map_cons, List.nodup_append] at hnodupExp
  obtain ⟨_, hn2, hdisj⟩ := hnodupExp
  have h1 : ∀ e ∈ l1, s.id ≠ e.id := by
    intro e he heq
    exact hdisj (heq ▸ List.mem_map_of_mem (f := fun x => x.id) he)
      (List.mem_cons_self _ _)
  have h2 : ∀ e ∈ l2, s.id ≠ e.id := by
    intro e he heq
    exact (List.nodup_cons.mp hn2).1
      (heq ▸ List.mem_map_of_mem (f := fun x => x.id) he)
  have hproc : Tracker.process_expired_strategies now t getPrice updateOk
      active =
      l2.foldl (Tracker.processOneExpired getPrice updateOk t)
        (Tracker.processOneExpired getPrice updateOk t
          (l1.foldl (Tracker.processOneExpired getPrice updateOk t)
            (active, [])) s) := by
    unfold Tracker.process_expired_strategies
    rw [hsplit, List.foldl_append, List.foldl_cons]
  have hsA1 : s ∈ (l1.foldl (Tracker.processOneExpired getPrice updateOk t)
      (active, [])).1 :=
    Tracker.mem_foldl_process_fst getPrice updateOk t l1 (active, []) s hs h1
  have hA1snd : ∀ q ∈ (l1.foldl
      (Tracker.processOneExpired getPrice updateOk t) (active, [])).2,
      q.id ≠ s.id := by
    intro q hq
    rcases Tracker.foldl_process_snd_ids getPrice updateOk t l1 _ q hq
      with h | h
    · exact absurd h (List.not_mem_nil q)
    · obtain ⟨e, he, heq⟩ := List.mem_map.mp h
      exact fun hc => h1 e he (hc ▸ heq).symm
  constructor
  · intro hnone
    rw [hproc, Tracker.processOneExpired_of_none getPrice updateOk t _ s
      hnone]
    refine ⟨Tracker.mem_foldl_process_fst getPrice updateOk t l2 _ s hsA1 h2,
      ?_⟩
    intro q hq
    rcases Tracker.foldl_process_snd_ids getPrice updateOk t l2 _ q hq
      with h | h
    · exact hA1snd q h
    · obtain ⟨e, he, heq⟩ := List.mem_map.mp h
      exact fun hc => h2 e he (hc ▸ heq).symm
  · intro p hp hu
    rw [hproc, Tracker.processOneExpired_of_fail getPrice updateOk t _ s p
      hp hu]
    have hcs : Tracker.completeStrategy s p t ∈
        ((l1.foldl (Tracker.processOneExpired getPrice updateOk t)
          (active, [])).1.map
            (fun x => if x.id = s.id then Tracker.completeStrategy s p t
              else x)) := by
      have := List.mem_map_of_mem
        (f := fun x => if x.id = s.id then Tracker.completeStrategy s p t
          else x) hsA1
      simpa only [if_pos rfl] using this
    refine ⟨Tracker.mem_foldl_process_fst getPrice updateOk t l2 _ _ hcs
      (fun e he => by
        rw [Tracker.completeStrategy_id]
        exact h2 e he), ?_⟩
    intro q hq
    rcases Tracker.foldl_process_snd_ids getPrice updateOk t l2 _ q hq
      with h | h
    · exact hA1snd q h
    · obtain ⟨e, he, heq⟩ := List.mem_map.mp h
      exact fun hc => h2 e he (hc ▸ heq).symm

/-- Witness for C2 (amended), price-lookup-failure side: the sole expired
record stays in the active set untouched when the price source fails. -/
theorem expired_failure_leaves_record_active_witness :
    sampleRecord "Call Debit Spread" ∈
      (Tracker.process_expired_strategies 30 30 (fun _ => none)
        (fun _ _ _ _ _ _ => true) [sampleRecord "Call Debit Spread"]).1 :=
  ((expired_failure_leaves_record_active 30 30 (fun _ => none)
      (fun _ _ _ _ _ _ => true) [sampleRecord "Call Debit Spread"]
      (sampleRecord "Call Debit Spread") (by simp)
      (List.mem_singleton.mpr rfl) (by decide)).1 rfl).1

/-- Counterexample to C2 as stated: with one expired record, a succeeding
price lookup (160) and a failing store update, the record stays in the
active set and is not returned, but its completion fields HAVE changed:
the active set now holds the record with status COMPLETED and
exit_price 160, while before the call it was ACTIVE with no exit_price.
So "all completion fields unchanged" is false for store-update failures. -/
theorem store_failure_mutates_active_record :
    (Tracker.process_expired_strategies 30 30 (fun _ => some 160)
        (fun _ _ _ _ _ _ => false) [sampleRecord "Call Debit Spread"]).2 =
      [] ∧
    (Tracker.process_expired_strategies 30 30 (fun _ => some 160)
        (fun _ _ _ _ _ _ => false) [sampleRecord "Call Debit Spread"]).1 =
      [Tracker.completeStrategy (sampleRecord "Call Debit Spread") 160 30] ∧
    (Tracker.completeStrategy (sampleRecord "Call Debit Spread")
        160 30).status = StrategyStatus.COMPLETED ∧
    (Tracker.completeStrategy (sampleRecord "Call Debit Spread")
        160 30).exit_price = some 160 ∧
    (sampleRecord "Call Debit Spread").status = StrategyStatus.ACTIVE ∧
    (sampleRecord "Call Debit Spread").exit_price = none := by
  norm_num [Tracker.process_expired_strategies,
    Tracker.get_expired_strategies, Tracker.processOneExpired,
    Tracker.completeStrategy, Tracker.calculate_strategy_result,
    Tracker.remove_strategy, sampleRecord]

/-- Witness for C3 at a concrete one-record active set whose only record
is expired; the second call returns no completed records. -/
theorem process_expired_idempotent_witness :
    (Tracker.process_expired_strategies 30 30 (fun _ => some 160)
        (fun _ _ _ _ _ _ => true)
        (Tracker.process_expired_strategies 30 30 (fun _ => some 160)
          (fun _ _ _ _ _ _ => true)
          [sampleRecord "Call Debit Spread"]).1).2 = [] :=
  (process_expired_idempotent 30 30 30 (fun _ => some 160)
    (fun _ _ _ _ _ _ => true) [sampleRecord "Call Debit Spread"]
    (fun _ => rfl) (fun _ _ _ _ _ _ => rfl)).1

/-- C6: the max drawdown computed from the cumulative P&L ordered by
entry_date is always ≥ 0, and is ≤ 100 whenever every cumulative P&L value
is non-negative. -/
theorem max_drawdown_bounds (ss : List BacktestStrategy) :
    0 ≤ Analyzer._calculate_max_drawdown
        (Analyzer._calculate_cumulative_pnl ss) ∧
    ((∀ v ∈ Analyzer._calculate_cumulative_pnl ss, 0 ≤ v) →
      Analyzer._calculate_max_drawdown
        (Analyzer._calculate_cumulative_pnl ss) ≤ 100) := by
  constructor
  · cases h : Analyzer._calculate_cumulative_pnl ss with
    | nil => norm_num [Analyzer._calculate_max_drawdown]
    | cons a t =>
      show 0 ≤ ((a :: t).foldl Analyzer.ddStep (a, 0)).2
      simpa using Analyzer.foldl_ddStep_snd_mono (a :: t) (a, 0)
  · intro hpos
    cases h : Analyzer._calculate_cumulative_pnl ss with
    | nil => norm_num [Analyzer._calculate_max_drawdown]
    | cons a t =>
      show ((a :: t).foldl Analyzer.ddStep (a, 0)).2 ≤ 100
      exact Analyzer.foldl_ddStep_snd_le_100 (a :: t) (a, 0) (by norm_num)
        (fun v hv => hpos v (h ▸ hv))

/-- Witness for C6 at the empty record list. -/
theorem max_drawdown_bounds_witness :
    0 ≤ Analyzer._calculate_max_drawdown
        (Analyzer._calculate_cumulative_pnl []) ∧
    Analyzer._calculate_max_drawdown
        (Analyzer._calculate_cumulative_pnl []) ≤ 100 :=
  ⟨(max_drawdown_bounds []).1,
   (max_drawdown_bounds []).2
     (by simp [Analyzer._calculate_cumulative_pnl])⟩

/-- C5 (amended): profit_factor is the finite 0 for the empty record list;
for every non-empty record list it is `⊤` (float inf) exactly when
total_loss is 0 — regardless of total_profit, so an all-breakeven input
also yields `⊤`. -/
theorem profit_factor_empty_and_inf (sqrt : ℚ → ℚ)
    (ss : List BacktestStrategy) :
    (Analyzer.calculate_performance_metrics sqrt []).profit_factor =
      ((0 : ℚ) : WithTop ℚ) ∧
    (ss ≠ [] →
      ((Analyzer.calculate_performance_metrics sqrt ss).profit_factor = ⊤ ↔
        Analyzer.total_lossOf ss = 0)) := by
  constructor
  · rfl
  · intro hne
    unfold Analyzer.calculate_performance_metrics
    rw [if_neg (by simpa using hne)]
    dsimp only
    by_cases hl : Analyzer.total_lossOf ss > 0
    · rw [if_pos hl]
      constructor
      · intro htop
        exact absurd htop (by simp [WithTop.map_coe])
      · intro h0
        rw [h0] at hl
        exact absurd hl (lt_irrefl 0)
    · rw [if_neg hl]
      simp only [WithTop.map_top, true_iff]
      exact le_antisymm (not_lt.mp hl) (Analyzer.total_lossOf_nonneg ss)

/-- Witness for C5 (amended) at a concrete one-loss record list. -/
theorem profit_factor_empty_and_inf_witness :
    (Analyzer.calculate_performance_metrics (fun q => q)
        [losingRecord]).profit_factor = ⊤ ↔
      Analyzer.total_lossOf [losingRecord] = 0 :=
  (profit_factor_empty_and_inf (fun q => q) [losingRecord]).2 (by simp)

/-- Counterexample to C5 as stated: a single breakeven record (final_pnl
exactly 0) is a non-empty input with profit_factor = +∞ but
total_profit = 0, refuting "+∞ implies total_profit > 0". -/
theorem profit_factor_inf_with_zero_profit :
    (Analyzer.calculate_performance_metrics (fun q => q)
        [breakevenRecord]).profit_factor = ⊤ ∧
    Analyzer.total_profitOf [breakevenRecord] = 0 ∧
    ([breakevenRecord] : List BacktestStrategy) ≠ [] := by
  refine ⟨?_, ?_, by simp⟩
  · norm_num [Analyzer.calculate_performance_metrics,
      Analyzer.total_lossOf, Analyzer.lossesOf, breakevenRecord,
      sampleRecord]
  · norm_num [Analyzer.total_profitOf, Analyzer.profitsOf,
      breakevenRecord, sampleRecord]

/-- C4 (amended): the source performs no spread validation.  For every
parameter choice violating the spec's validity predicate (lower < upper,
positive strikes and premiums), `add_legs` still builds both legs and
`analyze` still runs the payoff computation to completion: for every
nonzero underlying price the result's payoff dict has the full 100
entries (the 100 grid prices are distinct; at underlying price 0 Python's
dict collapses the identical keys), each dict entry equals the call debit
payoff formula at its grid price, and max_profit bounds the curve.  No
`InvalidSpreadError` exists in the code. -/
theorem invalid_spread_still_analyzed (lo hi lp up S : ℚ) (e : String)
    (h : ¬ Core.specValidSpread lo hi lp up) (hS : S ≠ 0) :
    (Core.analyze (Core.CallDebitSpread.calculate_payoff
        (Core.CallDebitSpread.add_legs lo hi lp up e)) S
        "Call Debit Spread (Bullish)").payoff_at_expiration.length = 100 ∧
    (Core.CallDebitSpread.add_legs lo hi lp up e).length = 2 ∧
    ∀ pr ∈ (Core.analyze (Core.CallDebitSpread.calculate_payoff
        (Core.CallDebitSpread.add_legs lo hi lp up e)) S
        "Call Debit Spread (Bullish)").payoff_at_expiration,
      pr.2 = max (pr.1 - lo) 0 - max (pr.1 - hi) 0 - (lp - up) ∧
      pr.2 ≤ (Core.analyze (Core.CallDebitSpread.calculate_payoff
        (Core.CallDebitSpread.add_legs lo hi lp up e)) S
        "Call Debit Spread (Bullish)").max_profit := by
  have hpe := Core.analyze_payoff_eq (Core.CallDebitSpread.calculate_payoff
    (Core.CallDebitSpread.add_legs lo hi lp up e)) S
    "Call Debit Spread (Bullish)" hS
  refine ⟨?_, rfl, ?_⟩
  · rw [hpe, List.length_zip, List.length_map, Core.linspace_length,
      min_self]
  · intro pr hpr
    rw [hpe] at hpr
    constructor
    · have := Core.snd_eq_of_mem_zip_map
        (Core.CallDebitSpread.calculate_payoff
          (Core.CallDebitSpread.add_legs lo hi lp up e))
        (Core.linspace (S * (7 / 10)) (S * (13 / 10)) 100) pr hpr
      rw [this]
      show max (pr.1 - lo) 0 + -(max (pr.1 - hi) 0) - (lp - up) = _
      ring
    · have hmem : pr.2 ∈ (Core.linspace (S * (7 / 10)) (S * (13 / 10))
          100).map (Core.CallDebitSpread.calculate_payoff
            (Core.CallDebitSpread.add_legs lo hi lp up e)) :=
        (List.of_mem_zip hpr).2
      exact Core.le_listMax _ pr.2 hmem

/-- Witness for C4 (amended) at the inverted strikes 155/145 with
underlying price 150: the invalid spread is analyzed to a full 100-entry
payoff dict. -/
theorem invalid_spread_still_analyzed_witness :
    (Core.analyze (Core.CallDebitSpread.calculate_payoff
        (Core.CallDebitSpread.add_legs 155 145 3 1 "2024-01-19")) 150
        "Call Debit Spread (Bullish)").payoff_at_expiration.length = 100 :=
  (invalid_spread_still_analyzed 155 145 3 1 150 "2024-01-19"
    (by norm_num [Core.specValidSpread]) (by norm_num)).1

/-- Counterexample to C4 as stated: the spread with inverted strikes
(lower_strike 155 > upper_strike 145) violates the spec's validity rule,
yet construction and evaluation do not fail: `calculate_payoff` runs and
returns -7 at price 150, and `analyze` produces a complete result — no
typed validation failure exists in the code. -/
theorem invalid_spread_no_error :
    ¬ Core.specValidSpread 155 145 3 1 ∧
    Core.CallDebitSpread.calculate_payoff
      (Core.CallDebitSpread.add_legs 155 145 3 1 "2024-01-19") 150 = -7 ∧
    (Core.analyze (Core.CallDebitSpread.calculate_payoff
        (Core.CallDebitSpread.add_legs 155 145 3 1 "2024-01-19")) 150
        "Call Debit Spread (Bullish)").strategy_name =
      "Call Debit Spread (Bullish)" := by
  refine ⟨by norm_num [Core.specValidSpread], ?_, rfl⟩
  norm_num [Core.CallDebitSpread.calculate_payoff,
    Core.CallDebitSpread.add_legs]

/-- C9: the performance report for an empty record list is the explicit
no-data result, for every injected square-root and month-key function. -/
theorem empty_report_no_data (sqrt : ℚ → ℚ) (monthKey : ℤ → ℤ) :
    Analyzer.generate_performance_report sqrt monthKey [] =
      Analyzer.ReportResult.error "No strategies to analyze" := rfl

/-- Witness for C10 at the concrete Call Debit Spread of C1. -/
theorem record_cost_profit_invariant_witness :
    ((Engine.add_strategy_for_backtesting "s1" "SPY" "Call Debit Spread" 0 0 30
        150 145 155 3 1 1 []).getD (sampleRecord "x")).initial_cost =
      ((Engine.add_strategy_for_backtesting "s1" "SPY" "Call Debit Spread" 0 0 30
        150 145 155 3 1 1 []).getD (sampleRecord "x")).max_loss ∧
    ((Engine.add_strategy_for_backtesting "s1" "SPY" "Call Debit Spread" 0 0 30
        150 145 155 3 1 1 []).getD (sampleRecord "x")).max_profit +
      ((Engine.add_strategy_for_backtesting "s1" "SPY" "Call Debit Spread" 0 0 30
        150 145 155 3 1 1 []).getD (sampleRecord "x")).max_loss =
      ((155 : ℚ) - 145) * ((1 : ℤ) : ℚ) :=
  record_cost_profit_invariant "s1" "SPY" "Call Debit Spread" 0 0 30
    150 145 155 3 1 1 [] _ (Or.inl rfl) rfl

end OSA
